import Mathlib

/-!
Verification of the Candidate Scoring & Recommendation Engine
(`skill_engine.py`, `role_engine.py`, `roadmap_engine.py`).

Shallow embedding conventions:
* Python `float` arithmetic is idealised as exact rational arithmetic (`ℚ`);
  Python `int` becomes `ℤ` (counts that are provably non-negative use `ℕ`).
* Python `round(x, n)` uses round-half-to-even on the exact value; `rnd` below
  implements that tie-breaking rule on `ℚ`.
* Python strings are Lean `String`s; `str.lower()` is `lowerStr` (character-wise
  ASCII lowering, the relevant case since the spec fixes inputs to lowercase
  ASCII).  Python `dict`s are association lists in insertion order, and Python
  sets built by `{s.lower() for s in xs}` are modelled as deduplicated lists.
* Python's stable `list.sort` is modelled by the stable insertion sort `sortBy`.
* Fallible/optional Python values (`None`) are modelled with `Option`.
-/

/-- Round-half-to-even on rationals, returning an integer: the behaviour of
Python's built-in `round` applied to an exact value. -/
def rnd (q : ℚ) : ℤ :=
  if q - ⌊q⌋ < 1/2 then ⌊q⌋
  else if 1/2 < q - ⌊q⌋ then ⌊q⌋ + 1
  else if ⌊q⌋ % 2 = 0 then ⌊q⌋ else ⌊q⌋ + 1

/-- Python `round(q, d)`: round to `d` decimal digits, half-to-even. -/
def roundDec (d : ℕ) (q : ℚ) : ℚ := (rnd (q * 10 ^ d) : ℚ) / 10 ^ d

/-- Python `s.lower()` (character-wise ASCII lowering). -/
def lowerStr (s : String) : String := ⟨s.data.map Char.toLower⟩

/-- The Python set `{s.lower() for s in xs}`, as a deduplicated list. -/
def lowerSet (xs : List String) : List String := (xs.map lowerStr).dedup

/-- Stable insertion step: place `a` before the first element `b` with
`r a b = true` is false... i.e. `a` goes in front of `b` exactly when
`r a b` holds, so elements `a` "ties or beats" stay behind it. -/
def insertBy {α : Type} (r : α → α → Bool) (a : α) : List α → List α
  | [] => [a]
  | b :: t => if r a b then a :: b :: t else b :: insertBy r a t

/-- Stable insertion sort, modelling Python's stable `sorted`/`list.sort`
(with the comparison captured by `r a b` = "`a` may precede `b`"). -/
def sortBy {α : Type} (r : α → α → Bool) : List α → List α
  | [] => []
  | a :: t => insertBy r a (sortBy r t)

/-- Lexicographic strict comparison on character lists (Python `<` on str). -/
def lexLt : List Char → List Char → Bool
  | [], [] => false
  | [], _ :: _ => true
  | _ :: _, [] => false
  | a :: as, b :: bs => if a < b then true else if b < a then false else lexLt as bs

/-- Python `a <= b` on strings. -/
def strLeB (a b : String) : Bool := !(lexLt b.data a.data)

/-- Python `sorted` on a list of strings. -/
def sortStrings (l : List String) : List String := sortBy strLeB l

/-! ### `skill_engine.py` -/

/-- From `skill_engine.compute_authenticity`: fraction of resume-claimed
skills corroborated on GitHub, `|resume ∩ github| / |resume|` on lowercased
sets, rounded to 4 decimals, with Python-falsy (`None` or empty) inputs
short-circuiting to `0.0`. -/
def compute_authenticity (resume_skills github_skills : Option (List String)) : ℚ :=
  if (resume_skills.getD []).isEmpty then 0
  else if (github_skills.getD []).isEmpty then 0
  else
    let resume_set := lowerSet (resume_skills.getD [])
    let github_set := lowerSet (github_skills.getD [])
    let verified := resume_set.filter (fun s => decide (s ∈ github_set))
    roundDec 4 ((verified.length : ℚ) / (resume_set.length : ℚ))

/-- The character class `[a-z0-9]` of the extraction regex boundary guards
(`(?<![a-z0-9]) … (?![a-z0-9])`); the `re.IGNORECASE` flag is immaterial here
because both the pattern and the searched text are lowercased first. -/
def isLowerAlnum (c : Char) : Bool :=
  (decide ('a' ≤ c) && decide (c ≤ 'z')) || (decide ('0' ≤ c) && decide (c ≤ '9'))

/-- One position of `pattern.search` for the skill regex: the literal
(escaped) skill occurs at index `i` of the text, with the negative
look-behind and look-ahead boundary guards satisfied. -/
def matchesAt (s t : List Char) (i : ℕ) : Bool :=
  decide ((t.drop i).take s.length = s) &&
  (decide (i = 0) || !(isLowerAlnum (t.getD (i - 1) ' '))) &&
  (decide (i + s.length = t.length) || !(isLowerAlnum (t.getD (i + s.length) ' ')))

/-- `pattern.search(text_lower)` for one skill: some position matches. -/
def searchStandalone (s t : List Char) : Bool :=
  (List.range (t.length + 1)).any (fun i => matchesAt s t i)

/-- From `skill_engine.extract_resume_skills` (with `_ALL_SKILLS` /
`_SKILL_PATTERNS` built from the vocabulary parameter, as the module does
at load time from `skills.json`): lowercase and deduplicate the vocabulary,
order it longest-first, keep every skill whose standalone-token pattern fires
on the lowercased text, and return the matches sorted.  Python-falsy text
(`None` or the empty string) yields `[]`. -/
def extract_resume_skills (vocab : List String) (text : Option String) : List String :=
  match text with
  | none => []
  | some txt =>
    if txt = "" then []
    else
      let text_lower := txt.data.map Char.toLower
      let all_skills :=
        sortBy (fun a b => decide (b.length ≤ a.length)) ((vocab.map lowerStr).dedup)
      sortStrings (all_skills.filter (fun s => searchStandalone s.data text_lower))

/-! ### `role_engine.py` -/

/-- One entry of `roles.json`: `required_skills` keeps the nested
category → (skill → weight) insertion-ordered dicts as association lists. -/
structure RoleData where
  required_skills : List (String × List (String × ℤ))
  nice_to_have : List String
  min_cgpa : ℚ
  dsa_weight : ℚ
deriving DecidableEq

/-- `flat[k] = max(flat.get(k, 0), w)` on an insertion-ordered dict. -/
def dictInsertMax (flat : List (String × ℤ)) (k : String) (w : ℤ) : List (String × ℤ) :=
  match flat with
  | [] => [(k, max 0 w)]
  | (k2, w2) :: rest =>
    if k2 = k then (k2, max w2 w) :: rest else (k2, w2) :: dictInsertMax rest k w

/-- From `role_engine._flatten_required`: flatten the nested requirement
groups into a single skill → weight map, lowercasing keys, max weight wins. -/
def flatten_required (required : List (String × List (String × ℤ))) : List (String × ℤ) :=
  required.foldl
    (fun flat grp => grp.2.foldl (fun f sw => dictInsertMax f (lowerStr sw.1) sw.2) flat) []

/-- The role lookup shared by `get_skill_gaps`, `compute_readiness_full` and
`identify_skill_gaps`: exact `dict.get` first, then a first-match
case-insensitive scan (which also reports the canonical role name). -/
def resolveRole (roles : List (String × RoleData)) (name : String) :
    Option (String × RoleData) :=
  match roles.find? (fun rd => decide (rd.1 = name)) with
  | some rd => some rd
  | none => roles.find? (fun rd => decide (lowerStr rd.1 = lowerStr name))

/-- Loop body of `recommend_role`: skip roles with an empty flattened
requirement map, otherwise keep the strictly better unweighted ratio. -/
def recStep (cset : List String) (best : String × ℚ) (role : String × RoleData) :
    String × ℚ :=
  let flat := flatten_required role.2.required_skills
  if flat.length = 0 then best
  else
    let matched := (flat.filter (fun sw => decide (sw.1 ∈ cset))).length
    let mr := (matched : ℚ) / (flat.length : ℚ)
    if best.2 < mr then (role.1, mr) else best

/-- From `role_engine.recommend_role`: best-matching role and its unweighted
coverage ratio (rounded to 4 decimals), with `("", 0.0)` for Python-falsy
inputs; the accumulator starts at `("", -1.0)`. -/
def recommend_role (candidate_skills : List String)
    (roles : List (String × RoleData)) : String × ℚ :=
  if candidate_skills = [] ∨ roles = [] then ("", 0)
  else
    let candidate_set := lowerSet candidate_skills
    let res := roles.foldl (recStep candidate_set) ("", -1)
    (res.1, roundDec 4 res.2)

/-- The "keep the strictly better candidate" step of the selection fold,
abstracted from `recStep` for the argmax characterisation. -/
def selStep (best p : String × ℚ) : String × ℚ := if best.2 < p.2 then p else best

/-- The `(role name, unweighted coverage)` list that `recommend_role`
actually folds over: roles with an empty flattened map are skipped. -/
def roleScores (cset : List String) (roles : List (String × RoleData)) :
    List (String × ℚ) :=
  roles.filterMap (fun role =>
    let flat := flatten_required role.2.required_skills
    if flat.length = 0 then none
    else some (role.1,
      (((flat.filter (fun sw => decide (sw.1 ∈ cset))).length : ℚ) / (flat.length : ℚ))))

/-- Importance label of `identify_skill_gaps`. -/
def labelOfWeight (w : ℤ) : String :=
  if 3 ≤ w then "Critical" else if w = 2 then "Important" else "Recommended"

/-- One missing-skill entry of `identify_skill_gaps`. -/
structure Gap where
  skill : String
  weight : ℤ
  label : String
deriving DecidableEq

/-- Result dict of `identify_skill_gaps` (the `error` key is modelled by the
`has_error` flag). -/
structure GapResult where
  role : String
  missing_skills : List Gap
  present_skills : List String
  nice_to_have_gaps : List String
  gap_count : ℕ
  coverage_pct : ℚ
  has_error : Bool
deriving DecidableEq

/-- The `missing` list built by the partition loop of `identify_skill_gaps`
(the single pass appending to `present`/`missing` is rendered as two filters
over the same flattened map, which preserves both contents and order). -/
def missingOf (flat : List (String × ℤ)) (cset : List String) : List Gap :=
  (flat.filter (fun sw => decide (sw.1 ∉ cset))).map
    (fun sw => Gap.mk sw.1 sw.2 (labelOfWeight sw.2))

/-- The `present` list built by the partition loop of `identify_skill_gaps`. -/
def presentOf (flat : List (String × ℤ)) (cset : List String) : List String :=
  (flat.filter (fun sw => decide (sw.1 ∈ cset))).map (fun sw => sw.1)

/-- `missing.sort(key=lambda x: x["weight"], reverse=True)`: Python's stable
descending sort by weight. -/
def gapSort (l : List Gap) : List Gap :=
  sortBy (fun x y => decide ((Gap.weight y) ≤ (Gap.weight x))) l

/-- From `role_engine.identify_skill_gaps`: split the flattened requirement
map into present and missing skills, label and stably sort the missing ones
by descending weight (Python's stable `list.sort` with `reverse=True`),
sort the present ones, and report the coverage percentage. -/
def identify_skill_gaps (roles : List (String × RoleData)) (role_name : String)
    (candidate_skills : List String) : GapResult :=
  match resolveRole roles role_name with
  | none => ⟨role_name, [], [], [], 0, 0, true⟩
  | some rd =>
    let candidate_set := lowerSet candidate_skills
    let flat := flatten_required rd.2.required_skills
    let present := presentOf flat candidate_set
    let missing2 := gapSort (missingOf flat candidate_set)
    let nice_to_have := rd.2.nice_to_have.map lowerStr
    let nth_gaps := nice_to_have.filter (fun s => decide (s ∉ candidate_set))
    let coverage := roundDec 2 ((present.length : ℚ) / ((max flat.length 1 : ℕ) : ℚ) * 100)
    ⟨rd.1, missing2, sortStrings present, nth_gaps, missing2.length, coverage, false⟩

/-- From `role_engine.compute_readiness`: the five-component weighted
readiness score on a 0–100 scale, rounded to 2 decimals. -/
def compute_readiness (match_score authenticity : ℚ) (leetcode_total repo_count : ℤ)
    (cgpa : ℚ) : ℚ :=
  let leetcode_norm := min 1 ((max 0 (leetcode_total : ℚ)) / 300)
  let repo_norm := min 1 ((max 0 (repo_count : ℚ)) / 10)
  let cgpa_norm := min 1 ((max 0 cgpa) / 10)
  let ms := max 0 (min 1 match_score)
  let auth := max 0 (min 1 authenticity)
  let raw := 40/100 * ms + 20/100 * auth + 20/100 * leetcode_norm
    + 10/100 * repo_norm + 10/100 * cgpa_norm
  roundDec 2 (max 0 (min 100 (raw * 100)))

/-- Result dict of `compute_readiness_full` (`components` flattened into the
four `comp_*` fields; the `error` key becomes `has_error`). -/
structure ReadinessFull where
  role : String
  readiness_score : ℚ
  comp_skill : ℚ
  comp_auth : ℚ
  comp_dsa : ℚ
  comp_cgpa : ℚ
  grade : String
  has_error : Bool
deriving DecidableEq

/-- From `role_engine.compute_readiness_full`: the role-sensitive readiness
variant.  `authenticity` is the `aggregate` entry of the authenticity dict,
`lc_activity` the `activity_score` entry of the LeetCode dict (both `None`
-safe via `getD 0`, as in the source's `(x or {}).get(..., 0.0)`). -/
def compute_readiness_full (roles : List (String × RoleData)) (role_name : String)
    (candidate_skills : List String) (authenticity : Option ℚ)
    (lc_activity : Option ℚ) (cgpa : Option ℚ) : ReadinessFull :=
  match resolveRole roles role_name with
  | none => ⟨role_name, 0, 0, 0, 0, 0, "N/A", true⟩
  | some rd =>
    let candidate_set := lowerSet candidate_skills
    let flat := flatten_required rd.2.required_skills
    let dw := rd.2.dsa_weight
    let raw := ((flat.filter (fun sw => decide (sw.1 ∈ candidate_set))).map
      (fun sw => sw.2)).sum
    let max_s := (flat.map (fun sw => sw.2)).sum
    let skill_match_pct : ℚ := if max_s = 0 then 0 else (raw : ℚ) / (max_s : ℚ) * 100
    let skill_component := skill_match_pct * (50/100)
    let auth_component := (authenticity.getD 0) * 100 * (20/100)
    let dsa0 := (lc_activity.getD 0) * 100 * dw * ((20/100) / max dw (1/100))
    let dsa_component := min dsa0 20
    let c := cgpa.getD 0
    let cgpa_component :=
      if 0 < c then
        (if c < rd.2.min_cgpa then min (c / 10 * 100) 100 * (70/100)
         else min (c / 10 * 100) 100) * (10/100)
      else 5
    let total0 := roundDec 2 (skill_component + auth_component + dsa_component + cgpa_component)
    let total := min total0 100
    let grade := if 80 ≤ total then "A" else if 65 ≤ total then "B"
      else if 50 ≤ total then "C" else if 35 ≤ total then "D" else "F"
    ⟨rd.1, total, roundDec 2 skill_component, roundDec 2 auth_component,
      roundDec 2 dsa_component, roundDec 2 cgpa_component, grade, false⟩

/-! ### `roadmap_engine.py` -/

/-- The `hours` field of each entry of the static `_RESOURCES` library
(the curated link and project payloads are presentation strings that no
scoring or phase logic ever reads; only `hours` feeds the roadmap). -/
def resource_hours_table : List (String × ℤ) :=
  [("python", 40), ("javascript", 50), ("typescript", 25), ("java", 60),
   ("c++", 60), ("go", 35), ("rust", 60),
   ("html", 15), ("css", 20), ("react", 45), ("nextjs", 30), ("vue", 35),
   ("tailwind", 10),
   ("django", 40), ("flask", 25), ("fastapi", 20), ("springboot", 50),
   ("express", 25),
   ("sql", 20), ("postgresql", 20), ("mongodb", 20), ("redis", 15),
   ("docker", 20), ("kubernetes", 40), ("aws", 50), ("terraform", 25),
   ("ci/cd", 20), ("linux", 25),
   ("machine learning", 80), ("deep learning", 80),
   ("natural language processing", 60), ("pytorch", 45), ("tensorflow", 40),
   ("scikit-learn", 20), ("mlops", 50), ("llm", 60),
   ("spark", 50), ("kafka", 35), ("airflow", 30),
   ("algorithms", 60), ("data structures", 40), ("dynamic programming", 30),
   ("system design", 50), ("microservices", 40), ("graphql", 20),
   ("rest api", 15), ("git", 10), ("unit testing", 15),
   ("authentication", 15), ("caching", 10)]

/-- `_RESOURCES.get(skill)` falling back to the generic 20-hour bundle
(`entry.get("hours", 20)`). -/
def resourceHours (skill : String) : ℤ :=
  match resource_hours_table.find? (fun e => decide (e.1 = skill)) with
  | some e => e.2
  | none => 20

/-- Phase data returned by `roadmap_engine._assign_phase`. -/
structure PhaseInfo where
  phase : String
  phase_label : String
  ord : ℤ
deriving DecidableEq

/-- From `roadmap_engine._assign_phase`: the five-rule decision table,
evaluated top to bottom, first match wins. -/
def assign_phase (weight estimated_hours : ℤ) : PhaseInfo :=
  if 3 ≤ weight ∧ estimated_hours ≤ 25 then ⟨"short-term", "Start within 2-4 weeks", 1⟩
  else if 3 ≤ weight then ⟨"medium-term", "Target within 1-3 months", 2⟩
  else if estimated_hours ≤ 15 then ⟨"short-term", "Start within 2-4 weeks", 1⟩
  else if estimated_hours ≤ 60 then ⟨"medium-term", "Target within 1-3 months", 2⟩
  else ⟨"long-term", "Plan for 3-6 months", 3⟩

/-- One roadmap item of `generate_roadmap` (again minus the presentation-only
resource-link and project payloads). -/
structure RoadmapItem where
  skill : String
  priority : String
  weight : ℤ
  hours : ℤ
  phase : String
  phase_label : String
deriving DecidableEq

/-- The roadmap item built for one gap entry in the `generate_roadmap` loop. -/
def mkRoadmapItem (g : Gap) : RoadmapItem :=
  let h := resourceHours g.skill
  let pinf := assign_phase g.weight h
  ⟨g.skill, g.label, g.weight, h, pinf.phase, pinf.phase_label⟩

/-- In-phase ordering of `generate_roadmap`
(`sort(key=lambda x: (-x["weight"], x["hours"]))`, stable). -/
def phaseOrd (a b : RoadmapItem) : Bool :=
  decide (b.weight < a.weight ∨ (a.weight = b.weight ∧ a.hours ≤ b.hours))

/-- Result dict of `generate_roadmap` (the three keys of the `phases` dict
are the three `*_term` fields; the human-readable `summary` line, which only
restates `total_items` / `total_hours`, is not modelled). -/
structure Roadmap where
  role : String
  short_term : List RoadmapItem
  medium_term : List RoadmapItem
  long_term : List RoadmapItem
  total_items : ℕ
  total_hours : ℤ
  nice_to_have : List (String × ℤ)
deriving DecidableEq

/-- From `roadmap_engine.generate_roadmap`: drop gaps already evidenced by
the LeetCode `dsa_skills` hint set (matched verbatim, as in the source),
build an item with looked-up hours for each remaining gap, bucket items by
their assigned phase in gap order, stably sort each bucket, and total the
hours of every included item.  (`candidate_skills` is accepted and, exactly
as in the source, never used by the loop.) -/
def generate_roadmap (skill_gaps : GapResult) (candidate_skills : List String)
    (role_name : String) (lc_dsa_skills : List String) : Roadmap :=
  let _candidate_set := lowerSet candidate_skills
  let included := skill_gaps.missing_skills.filter
    (fun g => decide (g.skill ∉ lc_dsa_skills))
  let items := included.map mkRoadmapItem
  let short_term := sortBy phaseOrd (items.filter (fun it => decide (it.phase = "short-term")))
  let medium_term := sortBy phaseOrd (items.filter (fun it => decide (it.phase = "medium-term")))
  let long_term := sortBy phaseOrd (items.filter (fun it => decide (it.phase = "long-term")))
  let nth_items := (skill_gaps.nice_to_have_gaps.take 10).map (fun s => (s, resourceHours s))
  ⟨role_name, short_term, medium_term, long_term,
    short_term.length + medium_term.length + long_term.length,
    (items.map (fun it => it.hours)).sum, nth_items⟩

/-! ### Definitions transcribed from the specification text (for the
refinement-style claims). -/

/-- Modelled from the spec, §4.6 (claim C1): normalise each input to `[0,1]`
(clamping negatives to zero first), weight 40/20/20/10/10, scale by 100,
clamp to `[0,100]` and round to 2 decimals. -/
def readinessSpecC1 (match_score authenticity : ℚ) (leetcode_total repo_count : ℤ)
    (cgpa : ℚ) : ℚ :=
  let ms := min 1 (max 0 match_score)
  let auth := min 1 (max 0 authenticity)
  let act := min 1 ((max 0 (leetcode_total : ℚ)) / 300)
  let rep := min 1 ((max 0 (repo_count : ℚ)) / 10)
  let cg := min 1 ((max 0 cgpa) / 10)
  roundDec 2 (min 100 (max 0
    (100 * (40/100 * ms + 20/100 * auth + 20/100 * act + 10/100 * rep + 10/100 * cg))))

/-- Modelled from the spec, §4.1 (claim C9): the skill occurs in the text as
a standalone token, i.e. at some position where it is not immediately
preceded or followed by an alphanumeric character. -/
def OccursStandalone (s t : List Char) : Prop :=
  ∃ i, i + s.length ≤ t.length ∧ (t.drop i).take s.length = s ∧
    (i = 0 ∨ isLowerAlnum (t.getD (i - 1) ' ') = false) ∧
    (i + s.length = t.length ∨ isLowerAlnum (t.getD (i + s.length) ' ') = false)

/-! ### Small concrete fixtures used by witnesses and counterexamples -/

/-- A one-role catalogue used to instantiate theorems at concrete inputs. -/
def rolesW : List (String × RoleData) :=
  [("Backend Developer",
    { required_skills := [("core", [("Python", 3), ("docker", 2), ("sql", 1)])],
      nice_to_have := ["graphql"],
      min_cgpa := 6,
      dsa_weight := 1/5 })]

/-- The (name, data) pair `resolveRole` yields on `rolesW`. -/
def rdW : String × RoleData :=
  ("Backend Developer",
   { required_skills := [("core", [("Python", 3), ("docker", 2), ("sql", 1)])],
     nice_to_have := ["graphql"],
     min_cgpa := 6,
     dsa_weight := 1/5 })

/-- A syntactically legal catalogue entry whose requirement map is empty
(nothing in the data model rules it out). -/
def emptyReqRole : RoleData :=
  { required_skills := [], nice_to_have := [], min_cgpa := 6, dsa_weight := 1/5 }

/-- A gap list naming the same skill twice at different weights (legal for
`generate_roadmap`, whose input is an arbitrary gap dict). -/
def cexGaps : GapResult :=
  { role := "Backend Developer",
    missing_skills := [⟨"docker", 3, "Critical"⟩, ⟨"docker", 1, "Recommended"⟩],
    present_skills := [],
    nice_to_have_gaps := [],
    gap_count := 2,
    coverage_pct := 0,
    has_error := false }

/-- A role with a high DSA-emphasis factor. -/
def roleDsaA : RoleData :=
  { required_skills := [("core", [("python", 3)])], nice_to_have := [],
    min_cgpa := 6, dsa_weight := 4/5 }

/-- A role identical to `roleDsaA` except for a low DSA-emphasis factor. -/
def roleDsaB : RoleData :=
  { required_skills := [("core", [("python", 3)])], nice_to_have := [],
    min_cgpa := 6, dsa_weight := 1/5 }

/-- A well-formed single-gap result (as the gap analyzer would produce). -/
def gapsW : GapResult :=
  { role := "Backend Developer",
    missing_skills := [⟨"docker", 2, "Important"⟩],
    present_skills := ["python"],
    nice_to_have_gaps := [],
    gap_count := 1,
    coverage_pct := 50,
    has_error := false }

section SortLemmas

variable {α : Type}

theorem insertBy_perm (r : α → α → Bool) (a : α) (l : List α) :
    List.Perm (insertBy r a l) (a :: l) := by
  induction l with
  | nil => simp [insertBy]
  | cons b t ih =>
    simp only [insertBy]
    split
    · exact List.Perm.refl _
    · exact (List.Perm.cons b ih).trans (List.Perm.swap a b t)

theorem sortBy_perm (r : α → α → Bool) (l : List α) :
    List.Perm (sortBy r l) l := by
  induction l with
  | nil => simp [sortBy]
  | cons a t ih => exact (insertBy_perm r a (sortBy r t)).trans (List.Perm.cons a ih)

theorem mem_sortBy {r : α → α → Bool} {l : List α} {x : α} :
    x ∈ sortBy r l ↔ x ∈ l := (sortBy_perm r l).mem_iff

theorem length_sortBy (r : α → α → Bool) (l : List α) :
    (sortBy r l).length = l.length := (sortBy_perm r l).length_eq

theorem insertBy_pairwise {r : α → α → Bool} {S : α → α → Prop}
    (hTrans : ∀ x y z, S x y → S y z → S x z)
    (hT : ∀ x y, r x y = true → S x y)
    (hF : ∀ x y, r x y = false → S y x)
    (a : α) {l : List α} (h : l.Pairwise S) :
    (insertBy r a l).Pairwise S := by
  induction l with
  | nil => simp [insertBy]
  | cons b t ih =>
    rcases List.pairwise_cons.mp h with ⟨hb, ht⟩
    by_cases hr : r a b = true
    · rw [show insertBy r a (b :: t) = a :: b :: t by simp [insertBy, hr]]
      refine List.pairwise_cons.mpr ⟨?_, h⟩
      intro x hx
      rcases List.mem_cons.mp hx with hx | hx
      · rw [hx]
        exact hT a b hr
      · exact hTrans a b x (hT a b hr) (hb x hx)
    · have hrf : r a b = false := by
        cases hab : r a b
        · rfl
        · exact absurd hab hr
      rw [show insertBy r a (b :: t) = b :: insertBy r a t by simp [insertBy, hrf]]
      refine List.pairwise_cons.mpr ⟨?_, ih ht⟩
      intro x hx
      rcases List.mem_cons.mp ((insertBy_perm r a t).mem_iff.mp hx) with hx | hx
      · rw [hx]
        exact hF a b hrf
      · exact hb x hx

theorem sortBy_pairwise {r : α → α → Bool} {S : α → α → Prop}
    (hTrans : ∀ x y z, S x y → S y z → S x z)
    (hT : ∀ x y, r x y = true → S x y)
    (hF : ∀ x y, r x y = false → S y x)
    (l : List α) : (sortBy r l).Pairwise S := by
  induction l with
  | nil => simp [sortBy]
  | cons a t ih => exact insertBy_pairwise hTrans hT hF a ih

/-- Stability of the descending-by-key insertion: the sorted list filtered to
one key value is the unsorted list filtered to that key value. -/
theorem filter_insertBy_key (key : α → ℤ) (a : α) (l : List α) (w : ℤ) :
    (insertBy (fun x y => decide (key y ≤ key x)) a l).filter
        (fun x => decide (key x = w)) =
      if key a = w then a :: l.filter (fun x => decide (key x = w))
      else l.filter (fun x => decide (key x = w)) := by
  induction l with
  | nil =>
    by_cases h : key a = w <;> simp [insertBy, h]
  | cons b t ih =>
    by_cases hr : key b ≤ key a
    · rw [show insertBy (fun x y => decide (key y ≤ key x)) a (b :: t) = a :: b :: t by
        simp [insertBy, hr]]
      by_cases h : key a = w <;> simp [List.filter_cons, h]
    · rw [show insertBy (fun x y => decide (key y ≤ key x)) a (b :: t)
            = b :: insertBy (fun x y => decide (key y ≤ key x)) a t by
        simp [insertBy, hr]]
      by_cases h : key a = w
      · have hb : ¬ key b = w := fun hbw => hr (by omega)
        simp [List.filter_cons, h, hb, ih]
      · simp [List.filter_cons, h, ih]

theorem filter_sortBy_key (key : α → ℤ) (l : List α) (w : ℤ) :
    (sortBy (fun x y => decide (key y ≤ key x)) l).filter
        (fun x => decide (key x = w)) =
      l.filter (fun x => decide (key x = w)) := by
  induction l with
  | nil => simp [sortBy]
  | cons a t ih =>
    simp only [sortBy, filter_insertBy_key, ih, List.filter_cons]
    by_cases h : key a = w <;> simp [h]

end SortLemmas

section RoundLemmas

theorem rnd_intCast (n : ℤ) : rnd (n : ℚ) = n := by
  unfold rnd
  norm_num [Int.floor_intCast]

theorem rnd_mono {x y : ℚ} (h : x ≤ y) : rnd x ≤ rnd y := by
  unfold rnd
  have hfl : ⌊x⌋ ≤ ⌊y⌋ := Int.floor_le_floor h
  rcases lt_or_eq_of_le hfl with hlt | heq
  · have h1 : x - ⌊x⌋ < 1 := by
      have := Int.sub_one_lt_floor x
      have := Int.lt_floor_add_one x
      linarith
    split_ifs <;> omega
  · rw [← heq]
    have hfr : x - ⌊x⌋ ≤ y - ⌊x⌋ := by linarith
    split_ifs with h1 h2 h3 h4 h5 h6 h7 h8 h9 h10 h11 <;> try omega
    all_goals linarith

theorem roundDec_mono (d : ℕ) {x y : ℚ} (h : x ≤ y) :
    roundDec d x ≤ roundDec d y := by
  unfold roundDec
  have hp : (0 : ℚ) < 10 ^ d := by positivity
  have h1 : rnd (x * 10 ^ d) ≤ rnd (y * 10 ^ d) :=
    rnd_mono (by nlinarith)
  exact div_le_div_of_nonneg_right (by exact_mod_cast h1) hp.le

theorem roundDec_intCast (d : ℕ) (n : ℤ) : roundDec d (n : ℚ) = n := by
  unfold roundDec
  have : ((n : ℚ) * 10 ^ d) = ((n * 10 ^ d : ℤ) : ℚ) := by push_cast; ring
  rw [this, rnd_intCast]
  have hp : (10 : ℚ) ^ d ≠ 0 := by positivity
  push_cast
  field_simp

/-- If `lo ≤ x ≤ hi` for integer bounds, the rounded value stays in range. -/
theorem roundDec_bounds (d : ℕ) (lo hi : ℤ) {x : ℚ}
    (h1 : (lo : ℚ) ≤ x) (h2 : x ≤ (hi : ℚ)) :
    (lo : ℚ) ≤ roundDec d x ∧ roundDec d x ≤ (hi : ℚ) := by
  constructor
  · have := roundDec_mono d h1
    rwa [roundDec_intCast] at this
  · have := roundDec_mono d h2
    rwa [roundDec_intCast] at this

/-- The two clamp orders into `[0,1]` agree. -/
theorem clamp01_comm (x : ℚ) : max 0 (min 1 x) = min 1 (max 0 x) := by
  simp only [min_def, max_def]
  split_ifs <;> linarith

/-- The two clamp orders into `[0,100]` agree. -/
theorem clamp100_comm (x : ℚ) : max 0 (min 100 x) = min 100 (max 0 x) := by
  simp only [min_def, max_def]
  split_ifs <;> linarith

theorem roundDec_zero (d : ℕ) : roundDec d 0 = 0 := by
  simpa using roundDec_intCast d 0

theorem roundDec_hundred (d : ℕ) : roundDec d 100 = 100 := by
  simpa using roundDec_intCast d 100

end RoundLemmas

/-! ### Claim C1 -/

/-- C1: for all inputs, the readiness score equals
`100 × (0.40·match + 0.20·authenticity + 0.20·min(1, activity/300) +
0.10·min(1, repos/10) + 0.10·min(1, cgpa/10))` after clamping `match` and
`authenticity` into `[0,1]` and clamping every negative input to zero, the
result being clamped to `[0,100]` and rounded to 2 decimals; in particular
all-zero inputs yield exactly `0.0` and the all-maximum inputs yield exactly
`100.0`. -/
theorem C1_readiness_formula :
    (∀ m a : ℚ, ∀ l r : ℤ, ∀ c : ℚ,
        compute_readiness m a l r c = readinessSpecC1 m a l r c) ∧
    compute_readiness 0 0 0 0 0 = 0 ∧
    compute_readiness 1 1 300 10 10 = 100 := by
  refine ⟨fun m a l r c => ?_, ?_, ?_⟩
  · simp only [compute_readiness, readinessSpecC1]
    rw [clamp01_comm, clamp01_comm, clamp100_comm, mul_comm _ (100 : ℚ)]
  · norm_num [compute_readiness, min_def, max_def, roundDec_zero]
  · norm_num [compute_readiness, min_def, max_def, roundDec_hundred]

/-! ### Claim C2 -/

/-- C2: authenticity equals `|resume ∩ corroborating| / |resume|` on
lowercased sets rounded to 4 decimals, is exactly `0.0` when either input is
empty, treats `None` like an empty set, is a total function, and always lies
in `[0,1]`. -/
theorem C2_authenticity :
    (∀ rs gs : List String,
        compute_authenticity (some rs) (some gs) =
          roundDec 4
            ((((lowerSet rs).filter (fun s => decide (s ∈ lowerSet gs))).length : ℚ) /
              ((lowerSet rs).length : ℚ))) ∧
    (∀ g, compute_authenticity none g = 0) ∧
    (∀ g, compute_authenticity (some []) g = 0) ∧
    (∀ r, compute_authenticity r none = 0) ∧
    (∀ r, compute_authenticity r (some []) = 0) ∧
    (∀ r g, 0 ≤ compute_authenticity r g ∧ compute_authenticity r g ≤ 1) := by
  have hbounds : ∀ r g, 0 ≤ compute_authenticity r g ∧ compute_authenticity r g ≤ 1 := by
    intro r g
    unfold compute_authenticity
    split_ifs with h1 h2
    · norm_num
    · norm_num
    · have hne : (lowerSet (r.getD [])).length ≠ 0 := by
        intro hlen
        rw [List.length_eq_zero] at hlen
        rw [List.isEmpty_iff] at h1
        apply h1
        have hmap : (r.getD []).map lowerStr = [] := (List.dedup_eq_nil _).mp hlen
        simpa using List.map_eq_nil_iff.mp hmap
      have hpos : (0 : ℚ) < ((lowerSet (r.getD [])).length : ℚ) := by
        exact_mod_cast Nat.pos_of_ne_zero hne
      have hle : ((lowerSet (r.getD [])).filter
          (fun s => decide (s ∈ lowerSet (g.getD [])))).length ≤
            (lowerSet (r.getD [])).length := List.length_filter_le _ _
      have h0 : (0 : ℚ) ≤
          (((lowerSet (r.getD [])).filter
            (fun s => decide (s ∈ lowerSet (g.getD [])))).length : ℚ) /
              ((lowerSet (r.getD [])).length : ℚ) := by positivity
      have hle1 : (((lowerSet (r.getD [])).filter
          (fun s => decide (s ∈ lowerSet (g.getD [])))).length : ℚ) /
            ((lowerSet (r.getD [])).length : ℚ) ≤ 1 := by
        rw [div_le_one hpos]
        exact_mod_cast hle
      have := roundDec_bounds 4 0 1 (by exact_mod_cast h0) (by exact_mod_cast hle1)
      constructor
      · exact_mod_cast this.1
      · exact_mod_cast this.2
  refine ⟨fun rs gs => ?_, fun g => ?_, fun g => ?_, fun r => ?_, fun r => ?_, hbounds⟩
  · unfold compute_authenticity
    split_ifs with h1 h2
    · rw [List.isEmpty_iff] at h1
      simp only [Option.getD_some] at h1
      subst h1
      simp [lowerSet, roundDec_zero]
    · rw [List.isEmpty_iff] at h2
      simp only [Option.getD_some] at h2
      subst h2
      simp [lowerSet, roundDec_zero]
    · rfl
  · simp [compute_authenticity]
  · simp [compute_authenticity]
  · rcases r with _ | rs
    · simp [compute_authenticity]
    · by_cases h : rs = [] <;> simp [compute_authenticity, h]
  · rcases r with _ | rs
    · simp [compute_authenticity]
    · by_cases h : rs = [] <;> simp [compute_authenticity, h]

/-! ### Claim C5 -/

/-- C5: the roadmap phase is assigned by the exact five-rule decision table
evaluated top-to-bottom with first match winning. -/
theorem C5_phase_decision_table :
    (∀ w h : ℤ, 3 ≤ w → h ≤ 25 → (assign_phase w h).phase = "short-term") ∧
    (∀ w h : ℤ, 3 ≤ w → 25 < h → (assign_phase w h).phase = "medium-term") ∧
    (∀ w h : ℤ, w < 3 → h ≤ 15 → (assign_phase w h).phase = "short-term") ∧
    (∀ w h : ℤ, w < 3 → 15 < h → h ≤ 60 → (assign_phase w h).phase = "medium-term") ∧
    (∀ w h : ℤ, w < 3 → 60 < h → (assign_phase w h).phase = "long-term") := by
  refine ⟨fun w h h1 h2 => ?_, fun w h h1 h2 => ?_, fun w h h1 h2 => ?_,
    fun w h h1 h2 h3 => ?_, fun w h h1 h2 => ?_⟩ <;>
  · unfold assign_phase
    split_ifs <;> first | rfl | omega

/-- Witness for C5 at concrete inputs, one per decision-table row. -/
theorem C5_phase_decision_table_witness :
    (assign_phase 3 20).phase = "short-term" ∧
    (assign_phase 3 30).phase = "medium-term" ∧
    (assign_phase 1 10).phase = "short-term" ∧
    (assign_phase 1 40).phase = "medium-term" ∧
    (assign_phase 1 100).phase = "long-term" :=
  ⟨C5_phase_decision_table.1 3 20 (by decide) (by decide),
   C5_phase_decision_table.2.1 3 30 (by decide) (by decide),
   C5_phase_decision_table.2.2.1 1 10 (by decide) (by decide),
   C5_phase_decision_table.2.2.2.1 1 40 (by decide) (by decide) (by decide),
   C5_phase_decision_table.2.2.2.2 1 100 (by decide) (by decide)⟩

/-! ### Claim C8 -/

/-- C8: the readiness score is monotonically non-decreasing in each of its
five inputs while the other four are held fixed. -/
theorem C8_readiness_monotone :
    (∀ m₁ m₂ a : ℚ, ∀ l r : ℤ, ∀ c : ℚ, m₁ ≤ m₂ →
        compute_readiness m₁ a l r c ≤ compute_readiness m₂ a l r c) ∧
    (∀ m a₁ a₂ : ℚ, ∀ l r : ℤ, ∀ c : ℚ, a₁ ≤ a₂ →
        compute_readiness m a₁ l r c ≤ compute_readiness m a₂ l r c) ∧
    (∀ m a : ℚ, ∀ l₁ l₂ r : ℤ, ∀ c : ℚ, l₁ ≤ l₂ →
        compute_readiness m a l₁ r c ≤ compute_readiness m a l₂ r c) ∧
    (∀ m a : ℚ, ∀ l r₁ r₂ : ℤ, ∀ c : ℚ, r₁ ≤ r₂ →
        compute_readiness m a l r₁ c ≤ compute_readiness m a l r₂ c) ∧
    (∀ m a : ℚ, ∀ l r : ℤ, ∀ c₁ c₂ : ℚ, c₁ ≤ c₂ →
        compute_readiness m a l r c₁ ≤ compute_readiness m a l r c₂) := by
  refine ⟨fun m₁ m₂ a l r c h => ?_, fun m a₁ a₂ l r c h => ?_,
    fun m a l₁ l₂ r c h => ?_, fun m a l r₁ r₂ c h => ?_,
    fun m a l r c₁ c₂ h => ?_⟩ <;>
  · simp only [compute_readiness]
    apply roundDec_mono
    gcongr

/-- Witness for C8: one concrete instance per input coordinate. -/
theorem C8_readiness_monotone_witness :
    compute_readiness 0 1 5 5 5 ≤ compute_readiness 1 1 5 5 5 ∧
    compute_readiness 1 0 5 5 5 ≤ compute_readiness 1 1 5 5 5 ∧
    compute_readiness 1 1 5 5 5 ≤ compute_readiness 1 1 6 5 5 ∧
    compute_readiness 1 1 5 5 5 ≤ compute_readiness 1 1 5 6 5 ∧
    compute_readiness 1 1 5 5 5 ≤ compute_readiness 1 1 5 5 6 :=
  ⟨C8_readiness_monotone.1 0 1 1 5 5 5 (by norm_num),
   C8_readiness_monotone.2.1 1 0 1 5 5 5 (by norm_num),
   C8_readiness_monotone.2.2.1 1 1 5 6 5 5 (by norm_num),
   C8_readiness_monotone.2.2.2.1 1 1 5 5 6 5 (by norm_num),
   C8_readiness_monotone.2.2.2.2 1 1 5 5 5 6 (by norm_num)⟩

/-! ### Claim C9 -/

theorem take_drop_eq_length_le {s t : List Char} {i : ℕ} (hi : i ≤ t.length)
    (h : (t.drop i).take s.length = s) : i + s.length ≤ t.length := by
  have hlen := congrArg List.length h
  rw [List.length_take, List.length_drop] at hlen
  omega

theorem searchStandalone_iff (s t : List Char) :
    searchStandalone s t = true ↔ OccursStandalone s t := by
  unfold searchStandalone OccursStandalone
  rw [List.any_eq_true]
  constructor
  · rintro ⟨i, hi, hm⟩
    rw [List.mem_range] at hi
    unfold matchesAt at hm
    simp only [Bool.and_eq_true, Bool.or_eq_true, decide_eq_true_eq,
      Bool.not_eq_true'] at hm
    obtain ⟨⟨h1, h2⟩, h3⟩ := hm
    exact ⟨i, take_drop_eq_length_le (by omega) h1, h1, h2, h3⟩
  · rintro ⟨i, hle, h1, h2, h3⟩
    refine ⟨i, List.mem_range.mpr (by omega), ?_⟩
    unfold matchesAt
    simp only [Bool.and_eq_true, Bool.or_eq_true, decide_eq_true_eq,
      Bool.not_eq_true']
    exact ⟨⟨h1, h2⟩, h3⟩

/-- C9: for every input text and vocabulary skill, the extractor reports the
skill exactly when it occurs standalone in the lowercased text (not
immediately preceded or followed by an alphanumeric character); empty or
`None` text yields an empty result, `"r"` never fires inside `"react"` or
`"arrays"`, and `"go"` never fires inside `"algorithm"`. -/
theorem C9_extraction :
    (∀ vocab, extract_resume_skills vocab none = []) ∧
    (∀ vocab, extract_resume_skills vocab (some "") = []) ∧
    (∀ vocab txt s, txt ≠ "" →
        (s ∈ extract_resume_skills vocab (some txt) ↔
          s ∈ vocab.map lowerStr ∧
            OccursStandalone s.data (txt.data.map Char.toLower))) ∧
    extract_resume_skills ["r", "react"] (some "react arrays") = ["react"] ∧
    extract_resume_skills ["go"] (some "algorithm") = [] := by
  refine ⟨fun vocab => rfl, fun vocab => rfl, fun vocab txt s htxt => ?_,
    by decide, by decide⟩
  simp only [extract_resume_skills, if_neg htxt]
  unfold sortStrings
  constructor
  · intro hmem
    rw [mem_sortBy, List.mem_filter] at hmem
    obtain ⟨h1, h2⟩ := hmem
    rw [mem_sortBy, List.mem_dedup] at h1
    exact ⟨h1, (searchStandalone_iff _ _).mp h2⟩
  · rintro ⟨h1, h2⟩
    rw [mem_sortBy, List.mem_filter]
    refine ⟨?_, (searchStandalone_iff _ _).mpr h2⟩
    rw [mem_sortBy, List.mem_dedup]
    exact h1

/-- Witness for C9 at a concrete vocabulary, text and skill. -/
theorem C9_extraction_witness :
    "python" ∈ extract_resume_skills ["python"] (some "i use python") ↔
      "python" ∈ (["python"].map lowerStr) ∧
        OccursStandalone "python".data ("i use python".data.map Char.toLower) :=
  C9_extraction.2.2.1 ["python"] "i use python" "python" (by decide)

/-! ### Claims C4 and C10 -/

theorem mem_missingOf {flat : List (String × ℤ)} {cset : List String} {g : Gap} :
    g ∈ missingOf flat cset ↔
      (g.skill, g.weight) ∈ flat ∧ g.skill ∉ cset ∧ g.label = labelOfWeight g.weight := by
  unfold missingOf
  rw [List.mem_map]
  constructor
  · rintro ⟨sw, hsw, rfl⟩
    rw [List.mem_filter] at hsw
    obtain ⟨h1, h2⟩ := hsw
    rw [decide_eq_true_eq] at h2
    exact ⟨by simpa using h1, h2, rfl⟩
  · rintro ⟨h1, h2, h3⟩
    refine ⟨(g.skill, g.weight), ?_, ?_⟩
    · rw [List.mem_filter]
      exact ⟨h1, by simpa using h2⟩
    · cases g
      simp_all

theorem mem_presentOf {flat : List (String × ℤ)} {cset : List String} {s : String} :
    s ∈ presentOf flat cset ↔ s ∈ cset ∧ ∃ w, (s, w) ∈ flat := by
  unfold presentOf
  rw [List.mem_map]
  constructor
  · rintro ⟨sw, hsw, rfl⟩
    rw [List.mem_filter] at hsw
    obtain ⟨h1, h2⟩ := hsw
    rw [decide_eq_true_eq] at h2
    exact ⟨h2, sw.2, by simpa using h1⟩
  · rintro ⟨hs, w, hw⟩
    refine ⟨(s, w), ?_, rfl⟩
    rw [List.mem_filter]
    exact ⟨hw, by simpa using hs⟩

theorem identify_missing_eq {roles : List (String × RoleData)} {name : String}
    (cs : List String) {rd : String × RoleData}
    (h : resolveRole roles name = some rd) :
    (identify_skill_gaps roles name cs).missing_skills =
      gapSort (missingOf (flatten_required rd.2.required_skills) (lowerSet cs)) := by
  unfold identify_skill_gaps
  rw [h]

theorem identify_present_eq {roles : List (String × RoleData)} {name : String}
    (cs : List String) {rd : String × RoleData}
    (h : resolveRole roles name = some rd) :
    (identify_skill_gaps roles name cs).present_skills =
      sortStrings (presentOf (flatten_required rd.2.required_skills) (lowerSet cs)) := by
  unfold identify_skill_gaps
  rw [h]

theorem identify_gap_count_eq {roles : List (String × RoleData)} {name : String}
    (cs : List String) {rd : String × RoleData}
    (h : resolveRole roles name = some rd) :
    (identify_skill_gaps roles name cs).gap_count =
      (gapSort (missingOf (flatten_required rd.2.required_skills) (lowerSet cs))).length := by
  unfold identify_skill_gaps
  rw [h]

theorem identify_coverage_eq {roles : List (String × RoleData)} {name : String}
    (cs : List String) {rd : String × RoleData}
    (h : resolveRole roles name = some rd) :
    (identify_skill_gaps roles name cs).coverage_pct =
      roundDec 2
        (((presentOf (flatten_required rd.2.required_skills) (lowerSet cs)).length : ℚ) /
          ((max (flatten_required rd.2.required_skills).length 1 : ℕ) : ℚ) * 100) := by
  unfold identify_skill_gaps
  rw [h]

theorem mem_gapSort {l : List Gap} {g : Gap} : g ∈ gapSort l ↔ g ∈ l := by
  unfold gapSort
  exact mem_sortBy

/-- C4: the gap analysis returns exactly the skills of the flattened
max-weight required map that are absent from the candidate set (so no gap
skill is in the candidate set), sorted descending by importance weight with
ties retaining flattening order, labelled by the weight thresholds; an
unresolvable role yields an empty gap list, not an error. -/
theorem C4_gap_analysis :
    ∀ (roles : List (String × RoleData)) (name : String) (cs : List String),
      (resolveRole roles name = none →
        (identify_skill_gaps roles name cs).missing_skills = []) ∧
      (∀ rd, resolveRole roles name = some rd →
        (∀ g, g ∈ (identify_skill_gaps roles name cs).missing_skills ↔
            ((g.skill, g.weight) ∈ flatten_required rd.2.required_skills ∧
              g.skill ∉ lowerSet cs ∧ g.label = labelOfWeight g.weight)) ∧
        (∀ g ∈ (identify_skill_gaps roles name cs).missing_skills,
          g.skill ∉ lowerSet cs) ∧
        List.Pairwise (fun x y => Gap.weight y ≤ Gap.weight x)
          (identify_skill_gaps roles name cs).missing_skills ∧
        (∀ w : ℤ,
          (identify_skill_gaps roles name cs).missing_skills.filter
              (fun g => decide (Gap.weight g = w)) =
            (missingOf (flatten_required rd.2.required_skills) (lowerSet cs)).filter
              (fun g => decide (Gap.weight g = w)))) := by
  intro roles name cs
  constructor
  · intro h
    unfold identify_skill_gaps
    rw [h]
  · intro rd h
    rw [identify_missing_eq cs h]
    refine ⟨?_, ?_, ?_, ?_⟩
    · intro g
      rw [mem_gapSort]
      exact mem_missingOf
    · intro g hg
      rw [mem_gapSort] at hg
      exact (mem_missingOf.mp hg).2.1
    · unfold gapSort
      exact sortBy_pairwise (r := fun x y => decide (Gap.weight y ≤ Gap.weight x))
        (S := fun x y => Gap.weight y ≤ Gap.weight x)
        (fun x y z hxy hyz => le_trans hyz hxy)
        (fun x y hd => of_decide_eq_true hd)
        (fun x y hd => by
          have h2 : ¬ (Gap.weight y ≤ Gap.weight x) := of_decide_eq_false hd
          omega) _
    · intro w
      unfold gapSort
      exact filter_sortBy_key Gap.weight _ w

/-- Witness for C4: the sortedness conjunct at a concrete catalogue, role
and candidate list (role resolved case-insensitively). -/
theorem C4_gap_analysis_witness :
    List.Pairwise (fun x y => Gap.weight y ≤ Gap.weight x)
      (identify_skill_gaps rolesW "backend developer" ["python"]).missing_skills :=
  (((C4_gap_analysis rolesW "backend developer" ["python"]).2 rdW rfl).2.2).1

/-- C10: for a resolvable role the detailed gap analysis partitions the
flattened required skill set between `present_skills` and `missing_skills`
(each required skill in exactly one, the lists disjoint), `gap_count` is the
number of missing skills, and `coverage_pct` equals
`100 × |present| / max(|required|, 1)` rounded to 2 decimals, hence lies in
`[0,100]`. -/
theorem C10_gap_partition :
    ∀ (roles : List (String × RoleData)) (name : String) (cs : List String) rd,
      resolveRole roles name = some rd →
      (∀ sw ∈ flatten_required rd.2.required_skills,
        (sw.1 ∈ (identify_skill_gaps roles name cs).present_skills ∧
          ¬ ∃ g ∈ (identify_skill_gaps roles name cs).missing_skills,
              g.skill = sw.1) ∨
        (sw.1 ∉ (identify_skill_gaps roles name cs).present_skills ∧
          ∃ g ∈ (identify_skill_gaps roles name cs).missing_skills,
            g.skill = sw.1)) ∧
      (∀ s ∈ (identify_skill_gaps roles name cs).present_skills,
        ∀ g ∈ (identify_skill_gaps roles name cs).missing_skills, g.skill ≠ s) ∧
      (identify_skill_gaps roles name cs).gap_count =
        (identify_skill_gaps roles name cs).missing_skills.length ∧
      (identify_skill_gaps roles name cs).coverage_pct =
        roundDec 2
          (100 * (((identify_skill_gaps roles name cs).present_skills.length : ℚ) /
            ((max (flatten_required rd.2.required_skills).length 1 : ℕ) : ℚ))) ∧
      0 ≤ (identify_skill_gaps roles name cs).coverage_pct ∧
      (identify_skill_gaps roles name cs).coverage_pct ≤ 100 := by
  intro roles name cs rd h
  have hp := identify_present_eq cs h
  have hm := identify_missing_eq cs h
  have hpmem : ∀ s, s ∈ (identify_skill_gaps roles name cs).present_skills ↔
      (s ∈ lowerSet cs ∧ ∃ w, (s, w) ∈ flatten_required rd.2.required_skills) := by
    intro s
    rw [hp]
    unfold sortStrings
    rw [mem_sortBy]
    exact mem_presentOf
  have hmmem : ∀ g, g ∈ (identify_skill_gaps roles name cs).missing_skills ↔
      ((g.skill, g.weight) ∈ flatten_required rd.2.required_skills ∧
        g.skill ∉ lowerSet cs ∧ g.label = labelOfWeight g.weight) := by
    intro g
    rw [hm, mem_gapSort]
    exact mem_missingOf
  refine ⟨?_, ?_, ?_, ?_, ?_⟩
  · intro sw hsw
    by_cases hin : sw.1 ∈ lowerSet cs
    · left
      constructor
      · exact (hpmem sw.1).mpr ⟨hin, sw.2, by simpa using hsw⟩
      · rintro ⟨g, hg, hgs⟩
        have := ((hmmem g).mp hg).2.1
        rw [hgs] at this
        exact this hin
    · right
      constructor
      · intro hmem
        exact hin ((hpmem sw.1).mp hmem).1
      · refine ⟨Gap.mk sw.1 sw.2 (labelOfWeight sw.2), ?_, rfl⟩
        exact (hmmem _).mpr ⟨by simpa using hsw, hin, rfl⟩
  · intro s hs g hg
    have h1 := ((hpmem s).mp hs).1
    have h2 := ((hmmem g).mp hg).2.1
    intro hEq
    rw [hEq] at h2
    exact h2 h1
  · rw [identify_gap_count_eq cs h, hm]
  · rw [identify_coverage_eq cs h, hp]
    unfold sortStrings
    rw [length_sortBy]
    congr 1
    ring
  · have hcov := identify_coverage_eq cs h
    have hple : (presentOf (flatten_required rd.2.required_skills) (lowerSet cs)).length ≤
        (flatten_required rd.2.required_skills).length := by
      unfold presentOf
      rw [List.length_map]
      exact List.length_filter_le _ _
    have hmax1 : 1 ≤ max (flatten_required rd.2.required_skills).length 1 :=
      le_max_right _ _
    have hmaxge : (flatten_required rd.2.required_skills).length ≤
        max (flatten_required rd.2.required_skills).length 1 := le_max_left _ _
    have hden : (0 : ℚ) < ((max (flatten_required rd.2.required_skills).length 1 : ℕ) : ℚ) := by
      exact_mod_cast hmax1
    have hratio : ((presentOf (flatten_required rd.2.required_skills) (lowerSet cs)).length : ℚ) /
        ((max (flatten_required rd.2.required_skills).length 1 : ℕ) : ℚ) ≤ 1 := by
      rw [div_le_one hden]
      exact_mod_cast le_trans hple hmaxge
    have h0 : (0 : ℚ) ≤ ((presentOf (flatten_required rd.2.required_skills) (lowerSet cs)).length : ℚ) /
        ((max (flatten_required rd.2.required_skills).length 1 : ℕ) : ℚ) := by positivity
    have hx0 : (0 : ℚ) ≤
        ((presentOf (flatten_required rd.2.required_skills) (lowerSet cs)).length : ℚ) /
          ((max (flatten_required rd.2.required_skills).length 1 : ℕ) : ℚ) * 100 := by
      linarith
    have hx1 : ((presentOf (flatten_required rd.2.required_skills) (lowerSet cs)).length : ℚ) /
        ((max (flatten_required rd.2.required_skills).length 1 : ℕ) : ℚ) * 100 ≤ 100 := by
      linarith
    have hbnd := roundDec_bounds 2 0 100 (by exact_mod_cast hx0) (by exact_mod_cast hx1)
    constructor
    · rw [hcov]
      exact_mod_cast hbnd.1
    · rw [hcov]
      exact_mod_cast hbnd.2

/-- Witness for C10: the `gap_count` conjunct at a concrete catalogue, role
and candidate list. -/
theorem C10_gap_partition_witness :
    (identify_skill_gaps rolesW "Backend Developer" ["python"]).gap_count =
      (identify_skill_gaps rolesW "Backend Developer" ["python"]).missing_skills.length :=
  (C10_gap_partition rolesW "Backend Developer" ["python"] rdW rfl).2.2.1

/-! ### Claim C3 -/

theorem foldl_recStep_eq (cset : List String) (roles : List (String × RoleData))
    (init : String × ℚ) :
    roles.foldl (recStep cset) init = (roleScores cset roles).foldl selStep init := by
  induction roles generalizing init with
  | nil => rfl
  | cons role rest ih =>
    by_cases hf : flatten_required role.2.required_skills = []
    · have h1 : recStep cset init role = init := by
        unfold recStep
        simp [hf]
      have h2 : roleScores cset (role :: rest) = roleScores cset rest := by
        unfold roleScores
        rw [List.filterMap_cons]
        simp [hf]
      rw [List.foldl_cons, h1, h2, ih]
    · have h1 : recStep cset init role = selStep init
          (role.1, (((flatten_required role.2.required_skills).filter
            (fun sw => decide (sw.1 ∈ cset))).length : ℚ) /
            ((flatten_required role.2.required_skills).length : ℚ)) := by
        unfold recStep selStep
        simp [hf]
      have h2 : roleScores cset (role :: rest) =
          (role.1, (((flatten_required role.2.required_skills).filter
            (fun sw => decide (sw.1 ∈ cset))).length : ℚ) /
            ((flatten_required role.2.required_skills).length : ℚ)) :: roleScores cset rest := by
        unfold roleScores
        rw [List.filterMap_cons]
        simp [hf]
      rw [List.foldl_cons, h1, h2, List.foldl_cons, ih]

theorem roleScores_bounds (cset : List String) (roles : List (String × RoleData)) :
    ∀ p ∈ roleScores cset roles, 0 ≤ p.2 ∧ p.2 ≤ 1 := by
  intro p hp
  unfold roleScores at hp
  rw [List.mem_filterMap] at hp
  obtain ⟨role, hrole, hsome⟩ := hp
  by_cases hf : flatten_required role.2.required_skills = []
  · simp [hf] at hsome
  · simp only [List.length_eq_zero, hf, if_false] at hsome
    rw [Option.some_inj] at hsome
    subst hsome
    have hpos : (0 : ℚ) < ((flatten_required role.2.required_skills).length : ℚ) := by
      exact_mod_cast List.length_pos.mpr hf
    constructor
    · dsimp only
      positivity
    · dsimp only
      rw [div_le_one hpos]
      exact_mod_cast List.length_filter_le _ _

theorem foldl_selStep_spec (l : List (String × ℚ)) (b : String × ℚ) :
    (l.foldl selStep b = b ∧ ∀ p ∈ l, p.2 ≤ b.2) ∨
    (∃ i, ∃ hi : i < l.length,
      l.foldl selStep b = l.get ⟨i, hi⟩ ∧ b.2 < (l.get ⟨i, hi⟩).2 ∧
      (∀ p ∈ l, p.2 ≤ (l.get ⟨i, hi⟩).2) ∧
      (∀ j, ∀ hj : j < l.length, j < i →
        (l.get ⟨j, hj⟩).2 < (l.get ⟨i, hi⟩).2)) := by
  induction l generalizing b with
  | nil =>
    left
    exact ⟨rfl, by simp⟩
  | cons p rest ih =>
    rw [List.foldl_cons]
    by_cases hb : b.2 < p.2
    · have hstep : selStep b p = p := by
        unfold selStep
        rw [if_pos hb]
      rw [hstep]
      rcases ih p with ⟨heq, hall⟩ | ⟨i, hi, heq, hlt, hall, hfirst⟩
      · right
        refine ⟨0, by simp, by simpa using heq, by simpa using hb, ?_, ?_⟩
        · intro q hq
          rcases List.mem_cons.mp hq with h | h
          · rw [h]
            simp
          · have := hall q h
            simpa using this
        · intro j hj hj0
          omega
      · right
        refine ⟨i + 1, by simp only [List.length_cons]; omega, ?_, ?_, ?_, ?_⟩
        · simpa using heq
        · simp only [List.get_cons_succ]
          linarith
        · intro q hq
          rcases List.mem_cons.mp hq with h | h
          · rw [h]
            simp only [List.get_cons_succ]
            linarith
          · simp only [List.get_cons_succ]
            exact hall q h
        · intro j hj hji
          cases j with
          | zero =>
            have hz : ((p :: rest).get ⟨0, hj⟩) = p := rfl
            rw [hz]
            simp only [List.get_cons_succ]
            exact hlt
          | succ j2 =>
            simp only [List.get_cons_succ]
            exact hfirst j2 (by simp only [List.length_cons] at hj; omega) (by omega)
    · have hstep : selStep b p = b := by
        unfold selStep
        rw [if_neg hb]
      rw [hstep]
      rcases ih b with ⟨heq, hall⟩ | ⟨i, hi, heq, hlt, hall, hfirst⟩
      · left
        refine ⟨heq, ?_⟩
        intro q hq
        rcases List.mem_cons.mp hq with h | h
        · rw [h]
          linarith [not_lt.mp hb]
        · exact hall q h
      · right
        refine ⟨i + 1, by simp only [List.length_cons]; omega, ?_, ?_, ?_, ?_⟩
        · simpa using heq
        · simp only [List.get_cons_succ]
          exact hlt
        · intro q hq
          rcases List.mem_cons.mp hq with h | h
          · rw [h]
            simp only [List.get_cons_succ]
            have := not_lt.mp hb
            linarith
          · simp only [List.get_cons_succ]
            exact hall q h
        · intro j hj hji
          cases j with
          | zero =>
            have hz : ((p :: rest).get ⟨0, hj⟩) = p := rfl
            rw [hz]
            simp only [List.get_cons_succ]
            have := not_lt.mp hb
            linarith
          | succ j2 =>
            simp only [List.get_cons_succ]
            exact hfirst j2 (by simp only [List.length_cons] at hj; omega) (by omega)

theorem recommend_role_eq (cs : List String) (roles : List (String × RoleData))
    (h1 : cs ≠ []) (h2 : roles ≠ []) :
    recommend_role cs roles =
      (((roleScores (lowerSet cs) roles).foldl selStep ("", -1)).1,
       roundDec 4 ((roleScores (lowerSet cs) roles).foldl selStep ("", -1)).2) := by
  unfold recommend_role
  rw [if_neg (by tauto)]
  show ((roles.foldl (recStep (lowerSet cs)) ("", -1)).1,
        roundDec 4 (roles.foldl (recStep (lowerSet cs)) ("", -1)).2) = _
  rw [foldl_recStep_eq]

/-- Counterexample to C3 as stated: on a nonempty candidate list and a
nonempty catalogue whose only role has an empty requirement map, the
accumulator `("", -1.0)` is returned unchanged, so the returned ratio is
`-1.0`, outside `[0,1]`. -/
theorem C3_counterexample :
    (recommend_role ["python"] [("Empty Role", emptyReqRole)]).2 = -1 ∧
    ¬ (0 ≤ (recommend_role ["python"] [("Empty Role", emptyReqRole)]).2) := by
  have h : recommend_role ["python"] [("Empty Role", emptyReqRole)]
      = ("", roundDec 4 (-1)) := rfl
  have h4 : roundDec 4 (-1 : ℚ) = -1 := by
    have := roundDec_intCast 4 (-1)
    push_cast at this
    exact this
  rw [h]
  simp only [h4]
  norm_num

/-- C3 (amended): the primary role recommendation computes per role the
unweighted coverage ratio on the flattened requirement map (roles with an
empty map are skipped), selects the role with the strictly greatest ratio
with the first role in catalogue order winning ties, and returns `("", 0.0)`
when the candidate set or the catalogue is empty.  The returned ratio (the
winning ratio rounded to 4 decimals) lies in `[0,1]` whenever at least one
role has a nonempty requirement map; when the candidate list and catalogue
are nonempty but every role is skipped, the function returns `("", -1.0)`
instead (this is the case the original claim's "always in [0,1]" misses). -/
theorem C3_recommend_role :
    ∀ (cs : List String) (roles : List (String × RoleData)),
      ((cs = [] ∨ roles = []) → recommend_role cs roles = ("", 0)) ∧
      (cs ≠ [] → roles ≠ [] → roleScores (lowerSet cs) roles = [] →
        recommend_role cs roles = ("", -1)) ∧
      (cs ≠ [] → roles ≠ [] → roleScores (lowerSet cs) roles ≠ [] →
        ∃ i, ∃ hi : i < (roleScores (lowerSet cs) roles).length,
          (recommend_role cs roles).1 =
            ((roleScores (lowerSet cs) roles).get ⟨i, hi⟩).1 ∧
          (recommend_role cs roles).2 =
            roundDec 4 ((roleScores (lowerSet cs) roles).get ⟨i, hi⟩).2 ∧
          (∀ p ∈ roleScores (lowerSet cs) roles,
            p.2 ≤ ((roleScores (lowerSet cs) roles).get ⟨i, hi⟩).2) ∧
          (∀ j, ∀ hj : j < (roleScores (lowerSet cs) roles).length, j < i →
            ((roleScores (lowerSet cs) roles).get ⟨j, hj⟩).2 <
              ((roleScores (lowerSet cs) roles).get ⟨i, hi⟩).2) ∧
          0 ≤ (recommend_role cs roles).2 ∧ (recommend_role cs roles).2 ≤ 1) := by
  intro cs roles
  refine ⟨?_, ?_, ?_⟩
  · intro h
    unfold recommend_role
    rw [if_pos h]
  · intro h1 h2 hsc
    rw [recommend_role_eq cs roles h1 h2, hsc]
    simp only [List.foldl_nil]
    have h4 : roundDec 4 (-1 : ℚ) = -1 := by
      have := roundDec_intCast 4 (-1)
      push_cast at this
      exact this
    rw [h4]
  · intro h1 h2 hsc
    rcases foldl_selStep_spec (roleScores (lowerSet cs) roles) ("", -1) with
      ⟨heq, hall⟩ | ⟨i, hi, heq, hlt, hall, hfirst⟩
    · obtain ⟨p, hp⟩ := List.exists_mem_of_ne_nil _ hsc
      have hb := roleScores_bounds _ _ p hp
      have := hall p hp
      simp only at this
      linarith [hb.1]
    · have hget := roleScores_bounds (lowerSet cs) roles _
        (List.get_mem (roleScores (lowerSet cs) roles) i hi)
      have hrnd := roundDec_bounds 4 0 1 (x :=
          ((roleScores (lowerSet cs) roles).get ⟨i, hi⟩).2)
        (by exact_mod_cast hget.1) (by exact_mod_cast hget.2)
      refine ⟨i, hi, ?_, ?_, hall, hfirst, ?_, ?_⟩
      · rw [recommend_role_eq cs roles h1 h2]
        simp only [heq]
      · rw [recommend_role_eq cs roles h1 h2]
        simp only [heq]
      · rw [recommend_role_eq cs roles h1 h2]
        simp only [heq]
        exact_mod_cast hrnd.1
      · rw [recommend_role_eq cs roles h1 h2]
        simp only [heq]
        exact_mod_cast hrnd.2

/-- Witness for C3: the empty-input clause at a concrete catalogue. -/
theorem C3_recommend_role_witness :
    recommend_role [] rolesW = ("", 0) :=
  (C3_recommend_role [] rolesW).1 (Or.inl rfl)

/-! ### Claim C6 -/

theorem assign_phase_tri (w h : ℤ) :
    (assign_phase w h).phase = "short-term" ∨ (assign_phase w h).phase = "medium-term" ∨
      (assign_phase w h).phase = "long-term" := by
  unfold assign_phase
  split_ifs <;> simp

theorem mkRoadmapItem_phase_tri (g : Gap) :
    (mkRoadmapItem g).phase = "short-term" ∨ (mkRoadmapItem g).phase = "medium-term" ∨
      (mkRoadmapItem g).phase = "long-term" :=
  assign_phase_tri g.weight (resourceHours g.skill)

theorem filter_length_sortBy {α : Type} (r : α → α → Bool) (l : List α) (p : α → Bool) :
    ((sortBy r l).filter p).length = (l.filter p).length :=
  ((sortBy_perm r l).filter p).length_eq

theorem count_three_phases (l : List RoadmapItem)
    (htri : ∀ it ∈ l, it.phase = "short-term" ∨ it.phase = "medium-term" ∨
      it.phase = "long-term") (p : RoadmapItem → Bool) :
    ((l.filter (fun it => decide (it.phase = "short-term"))).filter p).length +
      ((l.filter (fun it => decide (it.phase = "medium-term"))).filter p).length +
      ((l.filter (fun it => decide (it.phase = "long-term"))).filter p).length =
      (l.filter p).length := by
  have hSM : ("short-term" : String) ≠ "medium-term" := by decide
  have hSL : ("short-term" : String) ≠ "long-term" := by decide
  have hML : ("medium-term" : String) ≠ "long-term" := by decide
  induction l with
  | nil => rfl
  | cons it t ih =>
    have htri2 : ∀ x ∈ t, x.phase = "short-term" ∨ x.phase = "medium-term" ∨
        x.phase = "long-term" := fun x hx => htri x (List.mem_cons_of_mem _ hx)
    have ih2 := ih htri2
    rcases htri it (List.mem_cons_self _ _) with h0 | h0 | h0
    · have e1 : (it :: t).filter (fun x => decide (x.phase = "short-term")) =
          it :: t.filter (fun x => decide (x.phase = "short-term")) := by
        rw [List.filter_cons]
        simp [h0]
      have e2 : (it :: t).filter (fun x => decide (x.phase = "medium-term")) =
          t.filter (fun x => decide (x.phase = "medium-term")) := by
        rw [List.filter_cons]
        simp [h0, hSM]
      have e3 : (it :: t).filter (fun x => decide (x.phase = "long-term")) =
          t.filter (fun x => decide (x.phase = "long-term")) := by
        rw [List.filter_cons]
        simp [h0, hSL]
      rw [e1, e2, e3, List.filter_cons, List.filter_cons]
      by_cases hp : p it
      · rw [if_pos hp, if_pos hp]
        simp only [List.length_cons]
        omega
      · rw [if_neg hp, if_neg hp]
        omega
    · have e1 : (it :: t).filter (fun x => decide (x.phase = "short-term")) =
          t.filter (fun x => decide (x.phase = "short-term")) := by
        rw [List.filter_cons]
        simp [h0, Ne.symm hSM]
      have e2 : (it :: t).filter (fun x => decide (x.phase = "medium-term")) =
          it :: t.filter (fun x => decide (x.phase = "medium-term")) := by
        rw [List.filter_cons]
        simp [h0]
      have e3 : (it :: t).filter (fun x => decide (x.phase = "long-term")) =
          t.filter (fun x => decide (x.phase = "long-term")) := by
        rw [List.filter_cons]
        simp [h0, hML]
      rw [e1, e2, e3, List.filter_cons, List.filter_cons]
      by_cases hp : p it
      · rw [if_pos hp, if_pos hp]
        simp only [List.length_cons]
        omega
      · rw [if_neg hp, if_neg hp]
        omega
    · have e1 : (it :: t).filter (fun x => decide (x.phase = "short-term")) =
          t.filter (fun x => decide (x.phase = "short-term")) := by
        rw [List.filter_cons]
        simp [h0, Ne.symm hSL]
      have e2 : (it :: t).filter (fun x => decide (x.phase = "medium-term")) =
          t.filter (fun x => decide (x.phase = "medium-term")) := by
        rw [List.filter_cons]
        simp [h0, Ne.symm hML]
      have e3 : (it :: t).filter (fun x => decide (x.phase = "long-term")) =
          it :: t.filter (fun x => decide (x.phase = "long-term")) := by
        rw [List.filter_cons]
        simp [h0]
      rw [e1, e2, e3, List.filter_cons, List.filter_cons]
      by_cases hp : p it
      · rw [if_pos hp, if_pos hp]
        simp only [List.length_cons]
        omega
      · rw [if_neg hp, if_neg hp]
        omega

theorem items_skill_not_hint (gaps : GapResult) (lc : List String) :
    ∀ it ∈ (gaps.missing_skills.filter (fun g => decide (g.skill ∉ lc))).map mkRoadmapItem,
      it.skill ∉ lc := by
  intro it hit
  rw [List.mem_map] at hit
  obtain ⟨g, hg, rfl⟩ := hit
  rw [List.mem_filter] at hg
  have h2 := hg.2
  rw [decide_eq_true_eq] at h2
  exact h2

theorem nodup_filter_skill :
    ∀ (l : List Gap), (l.map Gap.skill).Nodup → ∀ g ∈ l,
      (l.filter (fun x => decide (Gap.skill x = Gap.skill g))).length = 1 := by
  intro l
  induction l with
  | nil =>
    intro _ g hg
    cases hg
  | cons a t ih =>
    intro hnd g hg
    rw [List.map_cons, List.nodup_cons] at hnd
    obtain ⟨ha, ht⟩ := hnd
    rcases List.mem_cons.mp hg with rfl | hgt
    · rw [List.filter_cons]
      have ht0 : t.filter (fun x => decide (Gap.skill x = Gap.skill g)) = [] := by
        rw [List.filter_eq_nil]
        intro x hx
        simp only [decide_eq_true_eq]
        intro hxs
        exact ha (hxs ▸ List.mem_map_of_mem Gap.skill hx)
      simp [ht0]
    · have hgs : Gap.skill a ≠ Gap.skill g := by
        intro hEq
        exact ha (hEq ▸ List.mem_map_of_mem Gap.skill hgt)
      rw [List.filter_cons]
      simp [hgs, ih ht g hgt]

theorem skill_count_pos_iff (l : List RoadmapItem) (s : String) :
    0 < (l.filter (fun it => decide (it.skill = s))).length ↔ ∃ it ∈ l, it.skill = s := by
  rw [List.length_pos]
  constructor
  · intro h
    rcases List.exists_mem_of_ne_nil _ h with ⟨it, hit⟩
    rw [List.mem_filter] at hit
    exact ⟨it, hit.1, of_decide_eq_true hit.2⟩
  · rintro ⟨it, hit, hs⟩
    intro hnil
    have hmem : it ∈ l.filter (fun it => decide (it.skill = s)) :=
      List.mem_filter.mpr ⟨hit, decide_eq_true hs⟩
    rw [hnil] at hmem
    cases hmem

/-- Counterexample to C6 as stated: with a gap list naming `docker` twice at
weights 3 and 1 and an empty hint set, `docker` is a non-hinted gap skill
that appears in the short-term AND the medium-term phase, so it does not
appear in exactly one of the three phases. -/
theorem C6_counterexample :
    (Gap.mk "docker" 3 "Critical") ∈ cexGaps.missing_skills ∧
    "docker" ∉ ([] : List String) ∧
    ¬ (((∃ it ∈ (generate_roadmap cexGaps [] "Backend Developer" []).short_term,
          it.skill = "docker") ∧
        ¬ (∃ it ∈ (generate_roadmap cexGaps [] "Backend Developer" []).medium_term,
          it.skill = "docker") ∧
        ¬ (∃ it ∈ (generate_roadmap cexGaps [] "Backend Developer" []).long_term,
          it.skill = "docker")) ∨
       (¬ (∃ it ∈ (generate_roadmap cexGaps [] "Backend Developer" []).short_term,
          it.skill = "docker") ∧
        (∃ it ∈ (generate_roadmap cexGaps [] "Backend Developer" []).medium_term,
          it.skill = "docker") ∧
        ¬ (∃ it ∈ (generate_roadmap cexGaps [] "Backend Developer" []).long_term,
          it.skill = "docker")) ∨
       (¬ (∃ it ∈ (generate_roadmap cexGaps [] "Backend Developer" []).short_term,
          it.skill = "docker") ∧
        ¬ (∃ it ∈ (generate_roadmap cexGaps [] "Backend Developer" []).medium_term,
          it.skill = "docker") ∧
        (∃ it ∈ (generate_roadmap cexGaps [] "Backend Developer" []).long_term,
          it.skill = "docker"))) := by
  decide

/-- C6 (amended): the roadmap's total hours is the sum of the estimated
hours of exactly the included items; skills present in the hint set are
skipped and contribute to no phase and not to the total; and — provided the
gap list names each skill at most once, as the gap analyzer guarantees —
every gap skill not present in the hint set appears in exactly one of the
three phases (the duplicate-skill counterexample is what forces the Nodup
proviso). -/
theorem C6_roadmap_invariants :
    ∀ (gaps : GapResult) (cs : List String) (role : String) (lc : List String),
      (generate_roadmap gaps cs role lc).total_hours =
        ((gaps.missing_skills.filter (fun g => decide (g.skill ∉ lc))).map
          (fun g => resourceHours g.skill)).sum ∧
      (∀ s ∈ lc,
        ((generate_roadmap gaps cs role lc).short_term.filter
          (fun it => decide (it.skill = s))).length = 0 ∧
        ((generate_roadmap gaps cs role lc).medium_term.filter
          (fun it => decide (it.skill = s))).length = 0 ∧
        ((generate_roadmap gaps cs role lc).long_term.filter
          (fun it => decide (it.skill = s))).length = 0) ∧
      ((gaps.missing_skills.map Gap.skill).Nodup →
        ∀ g ∈ gaps.missing_skills, g.skill ∉ lc →
          (((generate_roadmap gaps cs role lc).short_term.filter
              (fun it => decide (it.skill = g.skill))).length +
            ((generate_roadmap gaps cs role lc).medium_term.filter
              (fun it => decide (it.skill = g.skill))).length +
            ((generate_roadmap gaps cs role lc).long_term.filter
              (fun it => decide (it.skill = g.skill))).length = 1) ∧
          (((∃ it ∈ (generate_roadmap gaps cs role lc).short_term, it.skill = g.skill) ∧
            ¬ (∃ it ∈ (generate_roadmap gaps cs role lc).medium_term, it.skill = g.skill) ∧
            ¬ (∃ it ∈ (generate_roadmap gaps cs role lc).long_term, it.skill = g.skill)) ∨
           (¬ (∃ it ∈ (generate_roadmap gaps cs role lc).short_term, it.skill = g.skill) ∧
            (∃ it ∈ (generate_roadmap gaps cs role lc).medium_term, it.skill = g.skill) ∧
            ¬ (∃ it ∈ (generate_roadmap gaps cs role lc).long_term, it.skill = g.skill)) ∨
           (¬ (∃ it ∈ (generate_roadmap gaps cs role lc).short_term, it.skill = g.skill) ∧
            ¬ (∃ it ∈ (generate_roadmap gaps cs role lc).medium_term, it.skill = g.skill) ∧
            (∃ it ∈ (generate_roadmap gaps cs role lc).long_term, it.skill = g.skill)))) := by
  intro gaps cs role lc
  have hshort : (generate_roadmap gaps cs role lc).short_term =
      sortBy phaseOrd
        (((gaps.missing_skills.filter (fun g => decide (g.skill ∉ lc))).map
          mkRoadmapItem).filter (fun it => decide (it.phase = "short-term"))) := rfl
  have hmed : (generate_roadmap gaps cs role lc).medium_term =
      sortBy phaseOrd
        (((gaps.missing_skills.filter (fun g => decide (g.skill ∉ lc))).map
          mkRoadmapItem).filter (fun it => decide (it.phase = "medium-term"))) := rfl
  have hlong : (generate_roadmap gaps cs role lc).long_term =
      sortBy phaseOrd
        (((gaps.missing_skills.filter (fun g => decide (g.skill ∉ lc))).map
          mkRoadmapItem).filter (fun it => decide (it.phase = "long-term"))) := rfl
  have htri : ∀ it ∈ (gaps.missing_skills.filter (fun g => decide (g.skill ∉ lc))).map
      mkRoadmapItem, it.phase = "short-term" ∨ it.phase = "medium-term" ∨
      it.phase = "long-term" := by
    intro it hit
    rw [List.mem_map] at hit
    obtain ⟨g, _, rfl⟩ := hit
    exact mkRoadmapItem_phase_tri g
  refine ⟨?_, ?_, ?_⟩
  · show (((gaps.missing_skills.filter (fun g => decide (g.skill ∉ lc))).map
        mkRoadmapItem).map (fun it => it.hours)).sum = _
    rw [List.map_map]
    rfl
  · intro s hs
    have hzero : ∀ q : RoadmapItem → Bool,
        ((((gaps.missing_skills.filter (fun g => decide (g.skill ∉ lc))).map
          mkRoadmapItem).filter q).filter
            (fun it => decide (it.skill = s))).length = 0 := by
      intro q
      rw [List.length_eq_zero, List.filter_eq_nil]
      intro it hit
      rw [List.mem_filter] at hit
      have := items_skill_not_hint gaps lc it hit.1
      simp only [decide_eq_true_eq]
      intro hEq
      rw [hEq] at this
      exact this hs
    refine ⟨?_, ?_, ?_⟩
    · rw [hshort, filter_length_sortBy]
      exact hzero _
    · rw [hmed, filter_length_sortBy]
      exact hzero _
    · rw [hlong, filter_length_sortBy]
      exact hzero _
  · intro hnd g hg hglc
    have hsum : (((generate_roadmap gaps cs role lc).short_term.filter
          (fun it => decide (it.skill = g.skill))).length +
        ((generate_roadmap gaps cs role lc).medium_term.filter
          (fun it => decide (it.skill = g.skill))).length +
        ((generate_roadmap gaps cs role lc).long_term.filter
          (fun it => decide (it.skill = g.skill))).length) = 1 := by
      rw [hshort, hmed, hlong, filter_length_sortBy, filter_length_sortBy,
        filter_length_sortBy,
        count_three_phases _ htri (fun it => decide (it.skill = g.skill))]
      rw [List.filter_map, List.length_map]
      have hcongr : (gaps.missing_skills.filter (fun x => decide (x.skill ∉ lc))).filter
            ((fun it => decide (it.skill = g.skill)) ∘ mkRoadmapItem) =
          (gaps.missing_skills.filter (fun x => decide (x.skill ∉ lc))).filter
            (fun x => decide (Gap.skill x = Gap.skill g)) := by
        apply List.filter_congr
        intro x _
        rfl
      rw [hcongr, List.filter_filter]
      have hcongr2 : gaps.missing_skills.filter
            (fun x => decide (Gap.skill x = Gap.skill g) && decide (x.skill ∉ lc)) =
          gaps.missing_skills.filter (fun x => decide (Gap.skill x = Gap.skill g)) := by
        apply List.filter_congr
        intro x _
        by_cases hx : Gap.skill x = Gap.skill g
        · have hxlc : (decide (x.skill ∉ lc)) = true := by
            rw [decide_eq_true_eq, hx]
            exact hglc
          rw [hxlc]
          simp
        · have hxd : (decide (Gap.skill x = Gap.skill g)) = false := decide_eq_false hx
          rw [hxd]
          simp
      rw [hcongr2]
      exact nodup_filter_skill gaps.missing_skills hnd g hg
    refine ⟨hsum, ?_⟩
    set c1 := ((generate_roadmap gaps cs role lc).short_term.filter
      (fun it => decide (it.skill = g.skill))).length with hc1
    set c2 := ((generate_roadmap gaps cs role lc).medium_term.filter
      (fun it => decide (it.skill = g.skill))).length with hc2
    set c3 := ((generate_roadmap gaps cs role lc).long_term.filter
      (fun it => decide (it.skill = g.skill))).length with hc3
    have hb1 := skill_count_pos_iff (generate_roadmap gaps cs role lc).short_term g.skill
    have hb2 := skill_count_pos_iff (generate_roadmap gaps cs role lc).medium_term g.skill
    have hb3 := skill_count_pos_iff (generate_roadmap gaps cs role lc).long_term g.skill
    rw [← hc1] at hb1
    rw [← hc2] at hb2
    rw [← hc3] at hb3
    by_cases h1 : 0 < c1
    · left
      refine ⟨hb1.mp h1, ?_, ?_⟩
      · intro hex
        have := hb2.mpr hex
        omega
      · intro hex
        have := hb3.mpr hex
        omega
    · by_cases h2 : 0 < c2
      · right
        left
        refine ⟨?_, hb2.mp h2, ?_⟩
        · intro hex
          have := hb1.mpr hex
          omega
        · intro hex
          have := hb3.mpr hex
          omega
      · right
        right
        refine ⟨?_, ?_, hb3.mp (by omega)⟩
        · intro hex
          have := hb1.mpr hex
          omega
        · intro hex
          have := hb2.mpr hex
          omega

/-- Witness for C6: the exactly-one-phase conclusion at a concrete,
duplicate-free gap list. -/
theorem C6_roadmap_invariants_witness :
    (((generate_roadmap gapsW [] "Backend Developer" []).short_term.filter
        (fun it => decide (it.skill = (Gap.mk "docker" 2 "Important").skill))).length +
      ((generate_roadmap gapsW [] "Backend Developer" []).medium_term.filter
        (fun it => decide (it.skill = (Gap.mk "docker" 2 "Important").skill))).length +
      ((generate_roadmap gapsW [] "Backend Developer" []).long_term.filter
        (fun it => decide (it.skill = (Gap.mk "docker" 2 "Important").skill))).length = 1) ∧
    (((∃ it ∈ (generate_roadmap gapsW [] "Backend Developer" []).short_term,
        it.skill = (Gap.mk "docker" 2 "Important").skill) ∧
      ¬ (∃ it ∈ (generate_roadmap gapsW [] "Backend Developer" []).medium_term,
        it.skill = (Gap.mk "docker" 2 "Important").skill) ∧
      ¬ (∃ it ∈ (generate_roadmap gapsW [] "Backend Developer" []).long_term,
        it.skill = (Gap.mk "docker" 2 "Important").skill)) ∨
     (¬ (∃ it ∈ (generate_roadmap gapsW [] "Backend Developer" []).short_term,
        it.skill = (Gap.mk "docker" 2 "Important").skill) ∧
      (∃ it ∈ (generate_roadmap gapsW [] "Backend Developer" []).medium_term,
        it.skill = (Gap.mk "docker" 2 "Important").skill) ∧
      ¬ (∃ it ∈ (generate_roadmap gapsW [] "Backend Developer" []).long_term,
        it.skill = (Gap.mk "docker" 2 "Important").skill)) ∨
     (¬ (∃ it ∈ (generate_roadmap gapsW [] "Backend Developer" []).short_term,
        it.skill = (Gap.mk "docker" 2 "Important").skill) ∧
      ¬ (∃ it ∈ (generate_roadmap gapsW [] "Backend Developer" []).medium_term,
        it.skill = (Gap.mk "docker" 2 "Important").skill) ∧
      (∃ it ∈ (generate_roadmap gapsW [] "Backend Developer" []).long_term,
        it.skill = (Gap.mk "docker" 2 "Important").skill))) :=
  (C6_roadmap_invariants gapsW [] "Backend Developer" []).2.2 (by decide)
    (Gap.mk "docker" 2 "Important") (by decide) (by decide)

/-! ### Claim C7 -/

/-- C7: in `compute_readiness_full` the DSA/LeetCode component is capped at
20 points (true half of the claim), but it is NOT effectively reweighted by
the role's DSA-emphasis factor: the source multiplies by `dsa_weight` and
then divides it back out through `0.20 / max(dsa_weight, 0.01)`, so two
roles that differ only in their DSA weights (0.8 vs 0.2) receive the SAME
activity contribution (10.0 points at activity 0.5) — contradicting the
source's own docstring ("LeetCode activity × role's dsa_weight factor") and
inline comment ("Scale by role's DSA weight"). -/
theorem C7_dsa_component_eval :
    roleDsaA.dsa_weight ≠ roleDsaB.dsa_weight ∧
    (compute_readiness_full [("A", roleDsaA)] "A" [] (some 0)
      (some (1/2)) none).comp_dsa = 10 ∧
    (compute_readiness_full [("B", roleDsaB)] "B" [] (some 0)
      (some (1/2)) none).comp_dsa = 10 ∧
    (∀ (roles : List (String × RoleData)) (name : String) (cs : List String)
        (auth act cg : Option ℚ),
      (compute_readiness_full roles name cs auth act cg).comp_dsa ≤ 20) := by
  have h10 : roundDec 2 (10 : ℚ) = 10 := by simpa using roundDec_intCast 2 10
  refine ⟨by norm_num [roleDsaA, roleDsaB], ?_, ?_, ?_⟩
  · have hA : (compute_readiness_full [("A", roleDsaA)] "A" [] (some 0)
        (some (1/2)) none).comp_dsa =
        roundDec 2 (min ((1/2 : ℚ) * 100 * (4/5) * ((20/100) / max (4/5 : ℚ) (1/100))) 20) :=
      rfl
    rw [hA]
    have hmaxA : max (4/5 : ℚ) (1/100) = 4/5 := by
      rw [max_eq_left]
      norm_num
    rw [hmaxA]
    have harith : ((1/2 : ℚ) * 100 * (4/5) * ((20/100) / (4/5))) = 10 := by norm_num
    rw [harith, min_eq_left (by norm_num : (10 : ℚ) ≤ 20)]
    exact h10
  · have hB : (compute_readiness_full [("B", roleDsaB)] "B" [] (some 0)
        (some (1/2)) none).comp_dsa =
        roundDec 2 (min ((1/2 : ℚ) * 100 * (1/5) * ((20/100) / max (1/5 : ℚ) (1/100))) 20) :=
      rfl
    rw [hB]
    have hmaxB : max (1/5 : ℚ) (1/100) = 1/5 := by
      rw [max_eq_left]
      norm_num
    rw [hmaxB]
    have harith : ((1/2 : ℚ) * 100 * (1/5) * ((20/100) / (1/5))) = 10 := by norm_num
    rw [harith, min_eq_left (by norm_num : (10 : ℚ) ≤ 20)]
    exact h10
  · intro roles name cs auth act cg
    unfold compute_readiness_full
    rcases hr : resolveRole roles name with _ | rd
    · show (0 : ℚ) ≤ 20
      norm_num
    · show roundDec 2 (min ((act.getD 0) * 100 * rd.2.dsa_weight *
          ((20/100) / max rd.2.dsa_weight (1/100))) 20) ≤ 20
      have h1 := roundDec_mono 2 (min_le_right ((act.getD 0) * 100 * rd.2.dsa_weight *
        ((20/100) / max rd.2.dsa_weight (1/100))) 20)
      have h2 : roundDec 2 (20 : ℚ) = 20 := by simpa using roundDec_intCast 2 20
      rw [h2] at h1
      exact h1
